import Mathlib

/-!
Shallow embedding of the terracotta `/rgba` tile-compositing handler
(`terracotta/handlers/rgba.py`) and the parts of the `image` module it uses.

Numeric pixel and bound values are modelled as rationals; tiles are flat
lists of optional pixels (`none` = masked/no-data); the driver is an
abstract record of pure functions.  The handler is embedded as a pure
function returning both its result (`Except` for raised exceptions) and a
trace of externally visible events (connection acquisition and release,
band-retrieval submissions, metadata fetches, quantization calls), which
lets temporal claims about resource handling be stated as properties of
the trace.
-/

namespace Terracotta

/-- Exceptions raised by the handler or propagated from the driver
(`terracotta.exceptions`). -/
inductive TcError where
  | invalidArguments (msg : String)
  | datasetNotFound
deriving DecidableEq

/-- One stretch bound as supplied by the client after JSON decoding: an
absolute number, or a percentile designator `p<digits>` (the `NumberOrString`
type of `handlers/rgba.py`).  An absent bound is `Option.none` around this. -/
inductive StretchBound where
  | absolute (v : ℚ)
  | percentile (p : ℕ)
deriving DecidableEq

/-- A per-band stretch override: pair of optional bounds (low, high). -/
abbrev StretchOverride := Option StretchBound × Option StretchBound

/-- Per-dataset metadata as used by the handler: `range` = [min, max],
`percentiles` = ordered percentile table (may be empty; the handler reads it
with `metadata.get("percentiles", [])`). -/
structure Metadata where
  range : ℚ × ℚ
  percentiles : List ℚ
deriving DecidableEq

/-- A raw band tile: flat list of pixels, `none` marking masked pixels. -/
abbrev Tile := List (Option ℚ)

/-- A quantized 8-bit channel with its carried-forward mask. -/
abbrev Channel := List (Option ℤ)

/-- The abstract driver contract the handler consumes: key names, tile
retrieval and metadata retrieval keyed by the full dataset key tuple.  The
tile coordinate and tile size are fixed for the whole request and do not
influence any claim, so they are left implicit in the two retrieval maps. -/
structure Driver where
  key_names : List String
  get_tile_data : List String → Except TcError Tile
  get_metadata : List String → Except TcError Metadata

/-- The composited image: the stacked quantized channels in order. -/
structure Png where
  channels : List Channel
deriving DecidableEq

/-- Externally visible events of one handler execution, in order. -/
inductive Event where
  | connect
  | release
  | getTileData (keys : List String)
  | getMetadata (keys : List String)
  | toUint8 (low high : ℚ)
deriving DecidableEq

/-- Modelled from the spec: `image.get_stretch_scale` is not under `src/`.
Per the spec (§4.1, §9): an absolute bound is used verbatim; a percentile
bound `p` looks up `percentile_table[p]`; an empty table (or missing entry)
is a configuration error surfaced to the caller, not silently substituted. -/
def get_stretch_scale (scale : StretchBound) (percentiles : List ℚ) :
    Except TcError ℚ :=
  match scale with
  | .absolute v => .ok v
  | .percentile p =>
    match percentiles.get? p with
    | some v => .ok v
    | none => .error (.invalidArguments "percentile lookup failed: empty or insufficient percentile table")

/-- Per-band stretch-range resolution, embedded from `handlers/rgba.py`
lines 91-104: start from the metadata range, substitute each overridden
bound via `get_stretch_scale`, then raise iff `high < low` (the source's
`if band_stretch_range[1] < band_stretch_range[0]`, a strict comparison). -/
def resolve_band (metadata : Metadata) (override : StretchOverride) :
    Except TcError (ℚ × ℚ) :=
  match (match override.1 with
         | none => Except.ok metadata.range.1
         | some b => get_stretch_scale b metadata.percentiles) with
  | .error e => .error e
  | .ok low =>
    match (match override.2 with
           | none => Except.ok metadata.range.2
           | some b => get_stretch_scale b metadata.percentiles) with
    | .error e => .error e
    | .ok high =>
      if high < low then
        .error (.invalidArguments "Upper stretch bound must be higher than lower bound")
      else
        .ok (low, high)

/-- Modelled from the spec: `image.to_uint8` is not under `src/`.  Per the
spec (§4.3 Quantizer): linear remap
`clip((value - low) / (high - low) * 255, 0, 255)` rounded to the nearest
integer channel value.  This is the per-pixel map. -/
def quantize1 (low high v : ℚ) : ℤ :=
  round (min 255 (max 0 ((v - low) / (high - low) * 255)))

/-- Modelled from the spec: `image.to_uint8` applied to a whole tile; masked
pixels stay masked (§4.3: invalid pixels remain invalid in the output). -/
def to_uint8 (tile : Tile) (low high : ℚ) : Channel :=
  tile.map (Option.map (quantize1 low high))

/-- Modelled from the spec: `image.array_to_png` is not under `src/`.  Per
the spec (§4.5) it is a deterministic encoder of the stacked channels; the
claims only concern the channel stack, so the encoder is the stack itself. -/
def array_to_png (out_arrays : List Channel) : Png :=
  ⟨out_arrays⟩

/-- The handler's per-band loop (`handlers/rgba.py` lines 85-107) over the
zipped `(band_key, stretch_override, future)` items: fetch metadata, resolve
the stretch range, raise on an inverted range, force the band future, and
quantize.  Returns the accumulated channels (or the first error) plus the
events of the loop. -/
def processBands (d : Driver) (some_keys : List String) :
    List (String × StretchOverride × Except TcError Tile) →
    Except TcError (List Channel) × List Event
  | [] => (.ok [], [])
  | (band_key, band_stretch_override, band_data_future) :: rest =>
    let keys := some_keys ++ [band_key]
    match d.get_metadata keys with
    | .error e => (.error e, [.getMetadata keys])
    | .ok metadata =>
      match resolve_band metadata band_stretch_override with
      | .error e => (.error e, [.getMetadata keys])
      | .ok band_stretch_range =>
        match band_data_future with
        | .error e => (.error e, [.getMetadata keys])
        | .ok band_data =>
          let out := processBands d some_keys rest
          (out.1.map (fun chs =>
              to_uint8 band_data band_stretch_range.1 band_stretch_range.2 :: chs),
           .getMetadata keys :: .toUint8 band_stretch_range.1 band_stretch_range.2 :: out.2)

/-- The body of the handler's `with driver.connect():` block
(`handlers/rgba.py` lines 62-107): key-count check, submission of the four
band futures in request order, then the per-band loop. -/
def rgbaConnected (d : Driver) (some_keys rgba_values : List String)
    (stretch_ranges_ : List StretchOverride) :
    Except TcError (List Channel) × List Event :=
  let key_names := d.key_names
  if (some_keys.length : ℤ) ≠ (key_names.length : ℤ) - 1 then
    (.error (.invalidArguments "must specify all keys except last one"), [])
  else
    let futures := rgba_values.map (fun key => d.get_tile_data (some_keys ++ [key]))
    let fetchEvents := rgba_values.map (fun key => Event.getTileData (some_keys ++ [key]))
    let band_items := rgba_values.zip (stretch_ranges_.zip futures)
    let out := processBands d some_keys band_items
    (out.1, fetchEvents ++ out.2)

/-- The `/rgba` handler, embedded from `handlers/rgba.py`: default the
stretch ranges, count-validate the stretch ranges and band selectors, run
the connected body inside the driver connection, then stack the channels
and encode.  The `with driver.connect():` block contributes the `connect`
event before and the `release` event after the body's events, on success
and on every exception escaping the body alike. -/
def rgba (d : Driver) (some_keys rgba_values : List String)
    (stretch_ranges : Option (List (Option StretchOverride))) :
    Except TcError Png × List Event :=
  let stretch_ranges0 := stretch_ranges.getD [none, none, none, none]
  if stretch_ranges0.length ≠ 4 then
    (.error (.invalidArguments "stretch_ranges argument must contain 4 values"), [])
  else
    let stretch_ranges_ := stretch_ranges0.map (fun stretch_range => stretch_range.getD (none, none))
    if rgba_values.length ≠ 4 then
      (.error (.invalidArguments "rgba_values argument must contain 4 values"), [])
    else
      let body := rgbaConnected d some_keys rgba_values stretch_ranges_
      (body.1.map array_to_png, Event.connect :: (body.2 ++ [Event.release]))

/-- One band processed end to end, independently of the other bands: fetch
metadata, resolve the range, fetch the tile, quantize.  Used to state that a
successful run's channel at position `i` is exactly the processed `i`-th
requested band. -/
def process_band (d : Driver) (some_keys : List String) (band_key : String)
    (override : StretchOverride) : Except TcError Channel :=
  match d.get_metadata (some_keys ++ [band_key]) with
  | .error e => .error e
  | .ok metadata =>
    match resolve_band metadata override with
    | .error e => .error e
    | .ok r =>
      match d.get_tile_data (some_keys ++ [band_key]) with
      | .error e => .error e
      | .ok band_data => .ok (to_uint8 band_data r.1 r.2)

/-- A concrete two-key catalog driver whose datasets all have default range
[0, 100], no percentiles, and a single valid pixel of value 50. -/
def okDriver : Driver :=
  ⟨["k", "band"], fun _ => .ok [some 50], fun _ => .ok ⟨(0, 100), []⟩⟩

/-- A concrete two-key catalog driver whose datasets all have the degenerate
default range [5, 5] and a single valid pixel of value 1. -/
def degenerateDriver : Driver :=
  ⟨["k", "band"], fun _ => .ok [some 1], fun _ => .ok ⟨(5, 5), []⟩⟩

/-- C1: the claim states that resolution fails with an invalid-arguments
error whenever the resolved low bound is greater than *or equal to* the
resolved high bound.  The embedded code (`handlers/rgba.py` line 101) only
raises when `high < low`, a strict comparison, so equal resolved bounds pass
resolution: with both bounds overridden to the absolute value 5, resolution
succeeds with the degenerate range (5, 5) instead of failing.  This
contradicts the code's own error message ("Upper stretch bound must be
higher than lower bound") and feeds a zero divisor to the quantizer. -/
theorem resolve_band_equal_bounds_passes :
    resolve_band ⟨(0, 100), []⟩ (some (.absolute 5), some (.absolute 5)) = .ok (5, 5) := rfl

/-- C2: the claim states that every band reaching quantization has resolved
low strictly below resolved high, so `image.to_uint8` never divides by zero.
Counter-evaluation: with dataset default range [5, 5] and no overrides, the
range check passes (it is strict) and the handler reaches quantization with
low = high = 5, i.e. divisor `high - low = 0`; the run even completes.  The
`toUint8 5 5` event in the trace records the zero-divisor quantizer call. -/
theorem rgba_reaches_quantization_with_zero_divisor :
    Event.toUint8 5 5 ∈ (rgba degenerateDriver ["x"] ["r", "g", "b", "a"] none).2 ∧
    (rgba degenerateDriver ["x"] ["r", "g", "b", "a"] none).1
      = .ok ⟨[to_uint8 [some 1] 5 5, to_uint8 [some 1] 5 5,
              to_uint8 [some 1] 5 5, to_uint8 [some 1] 5 5]⟩ :=
  ⟨by decide, rfl⟩

/-- C3: for a band whose stretch override has both bounds absent, whenever
resolution succeeds the resolved range is exactly the dataset's default
metadata range — no substitution is applied to either bound. -/
theorem resolve_band_absent_bounds_default (m : Metadata) (r : ℚ × ℚ)
    (h : resolve_band m (none, none) = .ok r) : r = m.range := by
  unfold resolve_band at h
  dsimp only at h
  by_cases hc : m.range.2 < m.range.1
  · rw [if_pos hc] at h
    exact absurd h (by simp)
  · rw [if_neg hc] at h
    injection h with h
    rw [← h]

/-- Witness for C3 at a concrete input: default range [0, 100] with both
bounds absent resolves, and the resolved range is the default range. -/
theorem resolve_band_absent_bounds_default_witness :
    resolve_band ⟨(0, 100), []⟩ (none, none) = .ok (0, 100) ∧
    ((0 : ℚ), (100 : ℚ)) = (Metadata.mk (0, 100) []).range :=
  ⟨rfl, resolve_band_absent_bounds_default ⟨(0, 100), []⟩ (0, 100) rfl⟩

/-- C4: a percentile bound `p` resolves to entry `p` of the dataset's
percentile table: `get_stretch_scale` returns exactly the looked-up value,
and through `resolve_band` the resolved low bound equals that value; when
the percentile table is empty while a percentile bound is requested,
resolution fails deterministically with the invalid-arguments error, rather
than silently substituting another value. -/
theorem percentile_bound_resolution (p : ℕ) (m : Metadata) :
    (∀ v, m.percentiles.get? p = some v →
      get_stretch_scale (.percentile p) m.percentiles = .ok v) ∧
    (∀ v r, m.percentiles.get? p = some v →
      resolve_band m (some (.percentile p), none) = .ok r → r.1 = v) ∧
    (m.percentiles = [] →
      resolve_band m (some (.percentile p), none)
        = .error (.invalidArguments
            "percentile lookup failed: empty or insufficient percentile table")) := by
  refine ⟨?_, ?_, ?_⟩
  · intro v hv
    unfold get_stretch_scale
    dsimp only
    rw [hv]
  · intro v r hv h
    unfold resolve_band at h
    dsimp only at h
    unfold get_stretch_scale at h
    dsimp only at h
    rw [hv] at h
    dsimp only at h
    by_cases hc : m.range.2 < v
    · rw [if_pos hc] at h
      exact absurd h (by simp)
    · rw [if_neg hc] at h
      injection h with h
      rw [← h]
  · intro hemp
    unfold resolve_band get_stretch_scale
    rw [hemp]
    rfl

/-- Witness for C4 at concrete inputs: table [10, 20, 30] with percentile
bound 1 yields 20 both directly and through resolution; the empty table with
a percentile bound fails with the deterministic error. -/
theorem percentile_bound_resolution_witness :
    get_stretch_scale (.percentile 1) (Metadata.mk (0, 100) [10, 20, 30]).percentiles
      = .ok 20 ∧
    ((20 : ℚ), (100 : ℚ)).1 = (20 : ℚ) ∧
    resolve_band ⟨(0, 100), []⟩ (some (.percentile 1), none)
      = .error (.invalidArguments
          "percentile lookup failed: empty or insufficient percentile table") :=
  ⟨(percentile_bound_resolution 1 ⟨(0, 100), [10, 20, 30]⟩).1 20 rfl,
   (percentile_bound_resolution 1 ⟨(0, 100), [10, 20, 30]⟩).2.1 20 (20, 100) rfl rfl,
   (percentile_bound_resolution 1 ⟨(0, 100), []⟩).2.2 rfl⟩

/-- C5: whenever the number of band selectors is not exactly 4, or the
number of supplied stretch-range entries is not exactly 4 (an omitted
`stretch_ranges` defaults to four empty entries and never trips the count
check), the handler raises `InvalidArgumentsError` with an empty event
trace: no connection is acquired and no band retrieval or metadata fetch is
issued. -/
theorem rgba_count_validation (d : Driver) (ks vs : List String)
    (ovs : Option (List (Option StretchOverride)))
    (h : vs.length ≠ 4 ∨ (ovs.getD [none, none, none, none]).length ≠ 4) :
    ∃ msg, rgba d ks vs ovs = (.error (.invalidArguments msg), []) := by
  unfold rgba
  by_cases h1 : (ovs.getD [none, none, none, none]).length ≠ 4
  · rw [if_pos h1]
    exact ⟨_, rfl⟩
  · rw [if_neg h1]
    have h2 : vs.length ≠ 4 := by tauto
    rw [if_pos h2]
    exact ⟨_, rfl⟩

/-- Witness for C5: the spec's concrete scenario — exactly 3 band selectors
supplied fails with the count validation error and performs no I/O at all
(empty event trace). -/
theorem rgba_count_validation_witness :
    ∃ msg, rgba okDriver ["x"] ["b1", "b2", "b3"] none
      = (.error (.invalidArguments msg), []) :=
  rgba_count_validation okDriver ["x"] ["b1", "b2", "b3"] none (Or.inl (by decide))

/-- C6 counterexample: the claim states that a key-count mismatch raises
`InvalidArgumentsError` *before acquiring the driver connection*.  In the
embedded code the check sits inside the `with driver.connect():` block
(`handlers/rgba.py` lines 62-68), because it reads `driver.key_names`.  At
this concrete mismatching input the handler does raise the expected error,
but the event trace is `[connect, release]` — the connection was acquired
first, refuting the "before acquiring the driver connection" part. -/
theorem rgba_keycount_check_inside_connection :
    rgba okDriver ["a", "b"] ["r", "g", "b", "a"] none
      = (.error (.invalidArguments "must specify all keys except last one"),
         [Event.connect, Event.release]) ∧
    Event.connect ∈ (rgba okDriver ["a", "b"] ["r", "g", "b", "a"] none).2 :=
  ⟨rfl, by decide⟩

/-- C6 amended: whenever the supplied key count differs from the catalog's
key arity minus one (and the two count checks pass), the handler raises
`InvalidArgumentsError` before issuing any tile or metadata retrieval; the
driver connection is acquired for the check and then released, so the whole
trace is exactly `[connect, release]`. -/
theorem rgba_keycount_validation (d : Driver) (ks vs : List String)
    (ovs : Option (List (Option StretchOverride)))
    (h1 : (ovs.getD [none, none, none, none]).length = 4)
    (h2 : vs.length = 4)
    (h3 : (ks.length : ℤ) ≠ (d.key_names.length : ℤ) - 1) :
    rgba d ks vs ovs
      = (.error (.invalidArguments "must specify all keys except last one"),
         [Event.connect, Event.release]) := by
  unfold rgba rgbaConnected
  rw [if_neg (by omega : ¬(ovs.getD [none, none, none, none]).length ≠ 4),
      if_neg (by omega : ¬vs.length ≠ 4), if_pos h3]
  rfl

/-- Witness for C6's amended theorem at a concrete input: two keys supplied
against a two-key catalog (arity minus one is 1). -/
theorem rgba_keycount_validation_witness :
    rgba okDriver ["a", "b"] ["r", "g", "b", "a"] none
      = (.error (.invalidArguments "must specify all keys except last one"),
         [Event.connect, Event.release]) :=
  rgba_keycount_validation okDriver ["a", "b"] ["r", "g", "b", "a"] none
    (by decide) (by decide) (by decide)

/-- C8: for a resolved range with low < high, the per-pixel quantizer is
exactly the spec's formula `clip((v - low) / (high - low) * 255, 0, 255)`
rounded to the nearest integer; it is monotone in the pixel value, maps
`low` to 0 and maps `high` to 255 (hence within ±1 of both endpoints). -/
theorem quantize1_formula_monotone_boundary (low high : ℚ) (h : low < high) :
    (∀ v, quantize1 low high v
        = round (min 255 (max 0 ((v - low) / (high - low) * 255)))) ∧
    (∀ v1 v2, v1 < v2 → quantize1 low high v1 ≤ quantize1 low high v2) ∧
    quantize1 low high low = 0 ∧ quantize1 low high high = 255 := by
  have hd : (0 : ℚ) < high - low := by linarith
  refine ⟨fun v => rfl, ?_, ?_, ?_⟩
  · intro v1 v2 hv
    unfold quantize1
    have hdiv : (v1 - low) / (high - low) ≤ (v2 - low) / (high - low) :=
      (div_le_div_iff_of_pos_right hd).mpr (by linarith)
    have hmul : (v1 - low) / (high - low) * 255 ≤ (v2 - low) / (high - low) * 255 :=
      mul_le_mul_of_nonneg_right hdiv (by norm_num)
    have hclip : min 255 (max 0 ((v1 - low) / (high - low) * 255))
        ≤ min 255 (max 0 ((v2 - low) / (high - low) * 255)) :=
      min_le_min le_rfl (max_le_max le_rfl hmul)
    rw [round_eq, round_eq]
    exact Int.floor_le_floor (by linarith)
  · unfold quantize1
    rw [sub_self, zero_div, zero_mul]
    norm_num
  · unfold quantize1
    rw [div_self (ne_of_gt hd)]
    norm_num

/-- Witness for C8 at the concrete range [0, 100]: monotone between pixel
values 10 and 20, and the endpoints quantize to 0 and 255. -/
theorem quantize1_formula_monotone_boundary_witness :
    quantize1 0 100 10 ≤ quantize1 0 100 20 ∧
    quantize1 0 100 0 = 0 ∧ quantize1 0 100 100 = 255 :=
  ⟨(quantize1_formula_monotone_boundary 0 100 (by norm_num)).2.1 10 20 (by norm_num),
   (quantize1_formula_monotone_boundary 0 100 (by norm_num)).2.2.1,
   (quantize1_formula_monotone_boundary 0 100 (by norm_num)).2.2.2⟩

/-- The per-band loop never touches the connection: its event trace contains
no `connect` and no `release` event. -/
theorem processBands_no_connection_events (d : Driver) (ks : List String) :
    ∀ items, Event.connect ∉ (processBands d ks items).2 ∧
      Event.release ∉ (processBands d ks items).2 := by
  intro items
  induction items with
  | nil => simp [processBands]
  | cons it rest ih =>
    obtain ⟨band_key, ov, fut⟩ := it
    unfold processBands
    dsimp only
    split
    · simp
    · split
      · simp
      · split
        · simp
        · refine ⟨?_, ?_⟩ <;> simp [ih.1, ih.2]

/-- The connected body never emits `connect` or `release` itself: those are
contributed only by the `with driver.connect():` bracket. -/
theorem rgbaConnected_no_connection_events (d : Driver) (ks vs : List String)
    (svs : List StretchOverride) :
    Event.connect ∉ (rgbaConnected d ks vs svs).2 ∧
    Event.release ∉ (rgbaConnected d ks vs svs).2 := by
  unfold rgbaConnected
  dsimp only
  split
  · simp
  · have hp := processBands_no_connection_events d ks
      (vs.zip (svs.zip (vs.map (fun key => d.get_tile_data (ks ++ [key])))))
    refine ⟨?_, ?_⟩ <;> simp [List.mem_append, hp.1, hp.2]

/-- C9: on every execution of the handler — success or any failure — the
trace holds as many `release` events as `connect` events, and at most one of
each: the driver connection is acquired at most once, and whenever it is
acquired it is released exactly once; the handler never exits holding the
connection. -/
theorem rgba_connection_release_balanced (d : Driver) (ks vs : List String)
    (ovs : Option (List (Option StretchOverride))) :
    ((rgba d ks vs ovs).2.count Event.connect
        = (rgba d ks vs ovs).2.count Event.release) ∧
    (rgba d ks vs ovs).2.count Event.connect ≤ 1 := by
  unfold rgba
  dsimp only
  split
  · simp
  · split
    · simp
    · have hb := rgbaConnected_no_connection_events d ks vs
        ((ovs.getD [none, none, none, none]).map
          (fun stretch_range => stretch_range.getD (none, none)))
      rw [List.count_cons, List.count_cons, List.count_append, List.count_append,
          List.count_eq_zero.mpr hb.1, List.count_eq_zero.mpr hb.2]
      simp

/-- C10: an omitted `stretch_ranges` argument behaves exactly like four
empty overrides (result and event trace alike), and every `none` entry of a
supplied list is treated as the pair `(none, none)` — normalizing each entry
to `some` of its two-sided default changes nothing, and in particular the
list's length (hence the 4-value count check) is unaffected. -/
theorem rgba_default_stretch_ranges (d : Driver) (ks vs : List String) :
    rgba d ks vs none = rgba d ks vs (some [none, none, none, none]) ∧
    ∀ l, rgba d ks vs (some l)
        = rgba d ks vs (some (l.map
            (fun stretch_range => some (stretch_range.getD (none, none))))) := by
  refine ⟨rfl, ?_⟩
  intro l
  have hmap : (l.map (fun stretch_range => some (stretch_range.getD (none, none)))).map
        (fun stretch_range => stretch_range.getD (none, none))
      = l.map (fun stretch_range => stretch_range.getD (none, none)) := by
    rw [List.map_map]
    rfl
  unfold rgba
  dsimp only [Option.getD_some]
  rw [List.length_map, hmap]

/-- Inverting `Except.map`: a mapped computation is `ok` exactly when the
underlying computation is. -/
theorem except_map_ok {ε α β : Type} (f : α → β) (e : Except ε α) (b : β)
    (h : e.map f = .ok b) : ∃ a, e = .ok a ∧ f a = b := by
  cases e with
  | error e => simp [Except.map] at h
  | ok a =>
    refine ⟨a, rfl, ?_⟩
    simpa [Except.map] using h

/-- `getD` commutes with entry normalization of a stretch-override list. -/
theorem getD_map_stretch (l : List (Option StretchOverride)) (i : ℕ) :
    (l.map (fun stretch_range => stretch_range.getD (none, none))).getD i (none, none)
      = (l.getD i none).getD (none, none) := by
  induction l generalizing i with
  | nil => simp
  | cons a l ih =>
    cases i with
    | zero => simp
    | succ j => simpa using ih j

/-- When the per-band loop succeeds on the zipped band items (with each
future being the submitted retrieval for that band's keys), it produces one
channel per band, and the channel at each position is exactly that band
processed independently (`process_band`). -/
theorem processBands_zip_ok (d : Driver) (ks : List String) :
    ∀ (vs : List String) (svs : List StretchOverride) (chs : List Channel),
      svs.length = vs.length →
      (processBands d ks
          (vs.zip (svs.zip (vs.map (fun key => d.get_tile_data (ks ++ [key])))))).1
        = .ok chs →
      chs.length = vs.length ∧
      ∀ i, i < vs.length →
        process_band d ks (vs.getD i "") (svs.getD i (none, none))
          = .ok (chs.getD i []) := by
  intro vs
  induction vs with
  | nil =>
    intro svs chs _ h
    simp only [List.map_nil, List.zip_nil_left, processBands] at h
    injection h with h
    subst h
    exact ⟨rfl, fun i hi => absurd hi (by simp)⟩
  | cons k vs ih =>
    intro svs chs hlen h
    cases svs with
    | nil => simp at hlen
    | cons s svs =>
      simp only [List.map_cons, List.zip_cons_cons] at h
      unfold processBands at h
      dsimp only at h
      split at h
      · exact absurd h (by simp)
      · rename_i metadata hm
        split at h
        · exact absurd h (by simp)
        · rename_i r hr
          split at h
          · exact absurd h (by simp)
          · rename_i t ht
            obtain ⟨chs', hrest, hcons⟩ := except_map_ok _ _ _ h
            have hih := ih svs chs' (by simpa using hlen) hrest
            subst hcons
            refine ⟨by simpa using hih.1, ?_⟩
            intro i hi
            cases i with
            | zero =>
              simp only [List.getD_cons_zero]
              unfold process_band
              rw [hm]
              dsimp only
              rw [hr]
              dsimp only
              rw [ht]
            | succ j =>
              simpa using hih.2 j (by simpa using hi)

/-- C7: on every successful run, the output image has exactly one channel
per requested band, stacked in the order of the original band-selector
input: the channel at position `i` is the quantized tile of the `i`-th
requested band, as computed by processing that band alone (`process_band`)
against the driver — positional, hence independent of any completion order
of the four retrievals. -/
theorem rgba_channel_order (d : Driver) (ks vs : List String)
    (ovs : Option (List (Option StretchOverride))) (png : Png)
    (h : (rgba d ks vs ovs).1 = .ok png) :
    png.channels.length = vs.length ∧
    ∀ i, i < vs.length →
      process_band d ks (vs.getD i "")
          (((ovs.getD [none, none, none, none]).getD i none).getD (none, none))
        = .ok (png.channels.getD i []) := by
  unfold rgba at h
  dsimp only at h
  by_cases h1 : (ovs.getD [none, none, none, none]).length ≠ 4
  · rw [if_pos h1] at h
    exact absurd h (by simp)
  · rw [if_neg h1] at h
    by_cases h2 : vs.length ≠ 4
    · rw [if_pos h2] at h
      exact absurd h (by simp)
    · rw [if_neg h2] at h
      dsimp only at h
      obtain ⟨chs, hchs, hpng⟩ := except_map_ok array_to_png _ png h
      unfold rgbaConnected at hchs
      dsimp only at hchs
      by_cases hk : (ks.length : ℤ) ≠ (d.key_names.length : ℤ) - 1
      · rw [if_pos hk] at hchs
        exact absurd hchs (by simp)
      · rw [if_neg hk] at hchs
        have hz := processBands_zip_ok d ks vs
          ((ovs.getD [none, none, none, none]).map
            (fun stretch_range => stretch_range.getD (none, none))) chs
          (by rw [List.length_map]; omega) hchs
        have hpc : png.channels = chs := by
          rw [← hpng]
          rfl
        refine ⟨by rw [hpc]; exact hz.1, ?_⟩
        intro i hi
        have hq := hz.2 i hi
        rw [getD_map_stretch] at hq
        rw [hpc]
        exact hq

/-- Witness for C7 at a concrete successful request: four bands against
`okDriver`, no overrides — each output channel is its band's processed
tile. -/
theorem rgba_channel_order_witness :
    (Png.mk [to_uint8 [some 50] 0 100, to_uint8 [some 50] 0 100,
             to_uint8 [some 50] 0 100, to_uint8 [some 50] 0 100]).channels.length
      = (["r", "g", "b", "a"] : List String).length ∧
    ∀ i, i < (["r", "g", "b", "a"] : List String).length →
      process_band okDriver ["x"] ((["r", "g", "b", "a"] : List String).getD i "")
          ((((none : Option (List (Option StretchOverride))).getD
              [none, none, none, none]).getD i none).getD (none, none))
        = .ok ((Png.mk [to_uint8 [some 50] 0 100, to_uint8 [some 50] 0 100,
                to_uint8 [some 50] 0 100, to_uint8 [some 50] 0 100]).channels.getD i []) :=
  rgba_channel_order okDriver ["x"] ["r", "g", "b", "a"] none _ rfl

end Terracotta
